import Mathlib

/-!
Shallow embedding of the `event-frontend` scheduling client
(`src/components/Scheduler.tsx`, and the previous revision of the same file),
together with proofs about its date/slot-grouping logic, its REST request
construction and its state transitions.

Modelling conventions:
* An ISO-8601 timestamp string `"YYYY-MM-DDTHH:MM:SS[Z]"` is represented by
  its numeric fields plus a flag recording whether the string carries the
  `Z` (UTC) designator (`IsoTimestamp`).  The string-splitting code
  (`split("T")`, `split("-")`, `split(":")`, `parseInt`) is embedded at the
  granularity of those fields.
* A JavaScript `Date` is represented by the civil (wall-clock) fields it
  shows through its local-time getters (`getFullYear`, `getMonth` + 1,
  `getDate`, `getHours`, `getMinutes`, `getSeconds`): structure `JSDate`.
  Milliseconds are always zero in every flow the claims mention and are not
  modelled.
* The host timezone is a fixed offset `offsetMinutes : Int` (minutes east of
  UTC, local = UTC + offset).  Converting a UTC instant to its local civil
  fields is `shiftByOffset`, implemented with explicit Gregorian-calendar
  day stepping.
* `fetch` calls are embedded as pure state-transition functions taking the
  network outcome (success payload / non-OK / thrown error) as an explicit
  argument; the request a call sends is embedded as a separate function of
  the state.
-/

namespace Scheduler

/-- Numeric fields of an ISO-8601 timestamp string `YYYY-MM-DDTHH:MM:SS[Z]`.
`zulu` records whether the string ends in the UTC designator `Z`. -/
structure IsoTimestamp where
  year : Int
  month : Nat
  day : Nat
  hour : Nat
  minute : Nat
  second : Nat
  zulu : Bool
deriving DecidableEq, Repr

/-- Well-formedness of an ISO timestamp's fields (what an actual backend
slot string satisfies). -/
def isLeapYear (y : Int) : Bool :=
  (y % 4 == 0 && y % 100 != 0) || y % 400 == 0

/-- Length of a Gregorian month (month numbered 1..12). -/
def daysInMonth (y : Int) (m : Nat) : Nat :=
  if m = 2 then (if isLeapYear y then 29 else 28)
  else if m = 4 ∨ m = 6 ∨ m = 9 ∨ m = 11 then 30
  else 31

/-- Validity of the fields of an ISO timestamp. -/
def IsoTimestamp.Valid (t : IsoTimestamp) : Prop :=
  1 ≤ t.month ∧ t.month ≤ 12 ∧ 1 ≤ t.day ∧ t.day ≤ daysInMonth t.year t.month ∧
    t.hour < 24 ∧ t.minute < 60 ∧ t.second < 60

instance (t : IsoTimestamp) : Decidable t.Valid := by
  unfold IsoTimestamp.Valid; infer_instance

/-- A JavaScript `Date`, represented by the civil fields its local-time
getters expose.  `month` is 1..12 as in ISO strings; JS `getMonth()` is
`month - 1`. -/
structure JSDate where
  year : Int
  month : Nat
  day : Nat
  hour : Nat
  minute : Nat
  second : Nat
deriving DecidableEq, Repr

/-- Successor calendar day. -/
def nextDay : Int × Nat × Nat → Int × Nat × Nat
  | (y, m, d) =>
    if d < daysInMonth y m then (y, m, d + 1)
    else if m < 12 then (y, m + 1, 1)
    else (y + 1, 1, 1)

/-- Predecessor calendar day. -/
def prevDay : Int × Nat × Nat → Int × Nat × Nat
  | (y, m, d) =>
    if 1 < d then (y, m, d - 1)
    else if 1 < m then (y, m - 1, daysInMonth y (m - 1))
    else (y - 1, 12, daysInMonth (y - 1) 12)

/-- Shift a calendar day by `n` days (`n` may be negative). -/
def shiftDays (c : Int × Nat × Nat) (n : Int) : Int × Nat × Nat :=
  if 0 ≤ n then nextDay^[n.toNat] c else prevDay^[(-n).toNat] c

/-- Add a whole-minute offset to a civil datetime, carrying across day
boundaries.  This is how a `Date` holding a UTC instant renders that
instant through its local-time getters when the host timezone offset is
`offsetMinutes` (minutes east of UTC). -/
def shiftByOffset (y : Int) (m d h min s : Nat) (offsetMinutes : Int) : JSDate :=
  let t : Int := (h * 3600 + min * 60 + s : Nat) + offsetMinutes * 60
  let dayShift := t / 86400
  let tod := (t % 86400).toNat
  let c := shiftDays (y, m, d) dayShift
  ⟨c.1, c.2.1, c.2.2, tod / 3600, tod % 3600 / 60, tod % 60⟩

/-- Day count of a civil date from the epoch 1970-01-01 (Gregorian,
standard days-from-civil computation).  Used only to model JS `Date`
comparison against `Date.now()`. -/
def daysFromCivil (y : Int) (m d : Nat) : Int :=
  let y' : Int := if m ≤ 2 then y - 1 else y
  let era : Int := y' / 400
  let yoe : Nat := (y' - era * 400).toNat
  let m' : Nat := if 2 < m then m - 3 else m + 9
  let doy : Nat := (153 * m' + 2) / 5 + d - 1
  let doe : Nat := yoe * 365 + yoe / 4 - yoe / 100 + doy
  era * 146097 + doe - 719468

/-- The epoch second count (`Date.prototype.valueOf`, up to the factor
1000) of a `JSDate` whose local civil fields are given, in a host timezone
`offsetMinutes` minutes east of UTC. -/
def dateToEpochSeconds (offsetMinutes : Int) (dt : JSDate) : Int :=
  daysFromCivil dt.year dt.month dt.day * 86400 +
    (dt.hour * 3600 + dt.minute * 60 + dt.second : Nat) - offsetMinutes * 60

/-- Two-digit zero padding, as produced by `2-digit` date formatting. -/
def pad2 (n : Nat) : String :=
  if n < 10 then "0" ++ toString n else toString n

/-- `String.prototype.trim`: strip whitespace from both ends. -/
def jsTrim (s : String) : String :=
  ⟨((s.data.dropWhile Char.isWhitespace).reverse.dropWhile Char.isWhitespace).reverse⟩

/-! ### The data model of `Scheduler.tsx` -/

/-- `interface ScheduleData` (Scheduler.tsx 28-32): the `GET /schedule`
payload.  Slot strings are ISO timestamps, represented by their fields. -/
structure ScheduleData where
  available_slots : List IsoTimestamp
  recommendations : String
  note : Option String
deriving DecidableEq, Repr

/-- `interface ScheduleEventResponse` (Scheduler.tsx 34-37). -/
structure ScheduleEventResponse where
  status : String
  event_id : String
deriving DecidableEq, Repr

/-- Response of `POST /schedule/process-command`:
`{found_slot?, event_name?, event_description?, message}`. -/
structure NLResponse where
  found_slot : Option IsoTimestamp
  event_name : Option String
  event_description : Option String
  message : String
deriving DecidableEq, Repr

/-- Body of `POST /schedule/create` as built in `scheduleEvent`
(Scheduler.tsx 365-369): `{start_time, summary, description}`. -/
structure CreateEventBody where
  start_time : IsoTimestamp
  summary : String
  description : String
deriving DecidableEq, Repr

/-! ### Date helpers of `Scheduler.tsx` -/

/-- `parseUtcToLocalDate` (Scheduler.tsx 59-69, current revision):
splits the ISO string into its year/month/day and hour/minute fields and
returns `new Date(year, month - 1, day, hour, minute)` — a local `Date`
carrying the literal wall-clock fields of the string (seconds are dropped,
and no UTC-to-local conversion happens; the code comment reads
"Create date object directly without automatic timezone conversion"). -/
def parseUtcToLocalDate (isoString : IsoTimestamp) : JSDate :=
  ⟨isoString.year, isoString.month, isoString.day, isoString.hour, isoString.minute, 0⟩

/-- `parseUtcToLocalDate` of the previous revision
(src/unnamed/part_000 lines 59-62): `new Date(isoString)`.  A `Z`-suffixed
string denotes a UTC instant, which the `Date` getters then render in
local time (offset applied); a string without a zone designator is
interpreted as local time as written. -/
def parseUtcToLocalDateOld (offsetMinutes : Int) (iso : IsoTimestamp) : JSDate :=
  if iso.zulu then
    shiftByOffset iso.year iso.month iso.day iso.hour iso.minute iso.second offsetMinutes
  else
    ⟨iso.year, iso.month, iso.day, iso.hour, iso.minute, iso.second⟩

/-- `formatDateKey` (Scheduler.tsx 90-96):
`toLocaleDateString("en-US", {year: "numeric", month: "2-digit", day: "2-digit"})`,
i.e. the string `MM/DD/YYYY` built from the date's local fields. -/
def formatDateKey (date : JSDate) : String :=
  pad2 date.month ++ "/" ++ pad2 date.day ++ "/" ++ toString date.year

/-- The grouping key of a slot: `formatDateKey (parseUtcToLocalDate slot)`,
as computed inside `groupSlotsByDate`, `getDatesWithSlots` and
`getSlotsForSelectedDate`. -/
def slotDateKey (slot : IsoTimestamp) : String :=
  formatDateKey (parseUtcToLocalDate slot)

/-! ### Slot grouping (Scheduler.tsx 98-151) -/

/-- One step of the `forEach` loop of `groupSlotsByDate`
(Scheduler.tsx 103-112): push the slot onto the bucket keyed by
`formatDateKey(parseUtcToLocalDate(slot))`, creating the bucket first when
absent.  The `Record<string, string[]>` is modelled as a total function
that is `[]` outside the created keys. -/
def groupInsert (grouped : String → List IsoTimestamp) (slot : IsoTimestamp) :
    String → List IsoTimestamp :=
  let dateKey := formatDateKey (parseUtcToLocalDate slot)
  fun k => if k = dateKey then grouped k ++ [slot] else grouped k

/-- `groupSlotsByDate` (Scheduler.tsx 98-115). -/
def groupSlotsByDate (data : Option ScheduleData) : String → List IsoTimestamp :=
  match data with
  | none => fun _ => []
  | some d => d.available_slots.foldl groupInsert (fun _ => [])

/-- One step of the `forEach` loop of `getDatesWithSlots`
(Scheduler.tsx 123-133): when the slot's date key is new, record it in the
`uniqueDates` set and push
`new Date(date.getFullYear(), date.getMonth(), date.getDate())`. -/
def datesStep (acc : List String × List JSDate) (slot : IsoTimestamp) :
    List String × List JSDate :=
  let date := parseUtcToLocalDate slot
  let dateKey := formatDateKey date
  if dateKey ∈ acc.1 then acc
  else (acc.1 ++ [dateKey], acc.2 ++ [⟨date.year, date.month, date.day, 0, 0, 0⟩])

/-- `getDatesWithSlots` (Scheduler.tsx 117-136). -/
def getDatesWithSlots (data : Option ScheduleData) : List JSDate :=
  match data with
  | none => []
  | some d => (d.available_slots.foldl datesStep ([], [])).2

/-- `getSlotsForSelectedDate` (Scheduler.tsx 138-151): the selected date's
bucket, filtered to slots whose parsed hours satisfy
`hours >= 9 && hours < 19`. -/
def getSlotsForSelectedDate (selectedDate : Option JSDate)
    (data : Option ScheduleData) : List IsoTimestamp :=
  match selectedDate with
  | none => []
  | some sd =>
    let dateKey := formatDateKey sd
    let allSlots := groupSlotsByDate data dateKey
    allSlots.filter fun slot =>
      let hours := (parseUtcToLocalDate slot).hour
      decide (9 ≤ hours ∧ hours < 19)

/-! ### Component state (the `useState` hooks, Scheduler.tsx 40-57) -/

/-- The state of the `Scheduler` component: one field per `useState` hook
(the `contentRefs` DOM ref holds no program data and is not modelled).
`expandedDays : Record<string, boolean>` is modelled as a total function
defaulting to `false`. -/
structure SchedulerState where
  data : Option ScheduleData
  error : Option String
  loading : Bool
  selectedSlot : Option IsoTimestamp
  selectedDate : Option JSDate
  isAuthenticated : Bool
  showScheduleDialog : Bool
  eventName : String
  eventDescription : String
  expandedDays : String → Bool
  isCalendarOpen : Bool
  authLoading : Bool
  usingRealData : Bool
  dataLoading : Bool
  nlCommand : String
  nlProcessing : Bool
  nlResult : Option NLResponse

/-- The initial state (the `useState` initialisers, Scheduler.tsx 40-57). -/
def initialState : SchedulerState where
  data := none
  error := none
  loading := true
  selectedSlot := none
  selectedDate := none
  isAuthenticated := false
  showScheduleDialog := false
  eventName := ""
  eventDescription := ""
  expandedDays := fun _ => false
  isCalendarOpen := false
  authLoading := false
  usingRealData := false
  dataLoading := true
  nlCommand := ""
  nlProcessing := false
  nlResult := none

/-! ### Network outcomes

Each `fetch` is an independent asynchronous request-response; its outcome
is passed to the transition function as an explicit argument.  A non-OK
`/schedule` response throws inside the first `.then` and therefore lands
in the same `.catch` as a network error, so both failure kinds are one
constructor there. -/

/-- Outcome of the `GET /auth/status` fetch in `checkAuthStatus`. -/
inductive AuthStatusOutcome where
  | ok (authenticated : Bool)
  | notOk
  | threw
deriving DecidableEq, Repr

/-- Outcome of the `GET /auth/logout` fetch in `logoutFromGoogle`. -/
inductive LogoutOutcome where
  | ok
  | notOk
  | threw
deriving DecidableEq, Repr

/-- Outcome of the `GET /schedule` fetch in `fetchData`.  `failure` covers
both a non-OK status (which throws `Server responded with status: ...`)
and a network error, since both reach the `.catch` handler. -/
inductive ScheduleFetchOutcome where
  | success (responseData : ScheduleData)
  | failure
deriving DecidableEq, Repr

/-- Outcome of the `POST /schedule/create` fetch in `scheduleEvent`
(`failure` covers the thrown non-OK case and a network error, both caught
by the `catch` block). -/
inductive CreateOutcome where
  | success (result : ScheduleEventResponse)
  | failure
deriving DecidableEq, Repr

/-- Outcome of the `POST /schedule/process-command` fetch in
`processNaturalLanguage` (`failure` covers the thrown non-OK case and a
network error, both caught by the `catch` block). -/
inductive NLOutcome where
  | success (result : NLResponse)
  | failure
deriving DecidableEq, Repr

/-! ### REST requests and transitions -/

/-- `Date.prototype.toISOString`: render the UTC instant of the date as
`YYYY-MM-DDTHH:MM:SS.000Z` (the UTC fields are the local fields shifted
back by the host offset). -/
def toISOString (offsetMinutes : Int) (dt : JSDate) : String :=
  let u := shiftByOffset dt.year dt.month dt.day dt.hour dt.minute dt.second (-offsetMinutes)
  toString u.year ++ "-" ++ pad2 u.month ++ "-" ++ pad2 u.day ++ "T" ++
    pad2 u.hour ++ ":" ++ pad2 u.minute ++ ":" ++ pad2 u.second ++ ".000Z"

/-- The URL `fetchData` requests (Scheduler.tsx 243-245): with a date
argument, `/schedule?selected_date=${date.toISOString()}`; without one,
plain `/schedule`. -/
def fetchDataRequestUrl (offsetMinutes : Int) (date : Option JSDate) : String :=
  match date with
  | some d =>
      "http://localhost:8000/schedule?selected_date=" ++ toISOString offsetMinutes d
  | none => "http://localhost:8000/schedule"

/-- The synchronous part of `fetchData` (Scheduler.tsx 238-240):
`setDataLoading(true); setError(null)` before the request is sent. -/
def fetchData (st : SchedulerState) : SchedulerState :=
  { st with dataLoading := true, error := none }

/-- The continuation of `fetchData` (Scheduler.tsx 250-266): a successful
JSON response is stored unchanged via `setData(responseData)`, and
`usingRealData` is recomputed; any failure (non-OK status, which throws,
or a network error) reaches `.catch`, which stores the one generic error
message. -/
def fetchDataResolve (st : SchedulerState) : ScheduleFetchOutcome → SchedulerState
  | .success responseData =>
      { st with
        data := some responseData
        usingRealData :=
          st.isAuthenticated &&
            !(match responseData.note with
              | some n => (n.splitOn "mock").length ≥ 2
              | none => false : Bool)
        dataLoading := false }
  | .failure =>
      { st with
        error := some "Failed to load schedule data. Please try again later."
        dataLoading := false }

/-- `checkAuthStatus` (Scheduler.tsx 219-236): on an OK response, store
the response's `authenticated` field and return it; on a non-OK response
or a thrown error, return `false` and leave the state unchanged. -/
def checkAuthStatus (st : SchedulerState) : AuthStatusOutcome → SchedulerState × Bool
  | .ok authenticated => ({ st with isAuthenticated := authenticated }, authenticated)
  | .notOk => (st, false)
  | .threw => (st, false)

/-- `logoutFromGoogle` (Scheduler.tsx 196-217): `setLoading(true)`, then
on an OK response clear the session state and start a fresh `fetchData`;
a non-OK response or a thrown (caught) error changes nothing else; the
`finally` block ends with `setLoading(false); setAuthLoading(false)`. -/
def logoutFromGoogle (st : SchedulerState) (outcome : LogoutOutcome) : SchedulerState :=
  let st1 := { st with loading := true }
  let st2 :=
    match outcome with
    | .ok =>
        fetchData
          { st1 with
            isAuthenticated := false
            selectedSlot := none
            selectedDate := none
            data := none }
    | .notOk => st1
    | .threw => st1
  { st2 with loading := false, authLoading := false }

/-- The body `scheduleEvent` posts to `/schedule/create`
(Scheduler.tsx 355-370): `none` when `selectedSlot` is null (the function
returns before any request), otherwise
`{start_time: selectedSlot, summary: eventName, description: eventDescription}`. -/
def scheduleEventRequest (st : SchedulerState) : Option CreateEventBody :=
  match st.selectedSlot with
  | none => none
  | some slot => some ⟨slot, st.eventName, st.eventDescription⟩

/-- The state transition of `scheduleEvent` (Scheduler.tsx 355-387): with
no selected slot the function returns immediately; on success it closes
the dialog, clears the selection and the event fields and starts a fresh
`fetchData`; on failure only an alert is shown. -/
def scheduleEvent (st : SchedulerState) (outcome : CreateOutcome) : SchedulerState :=
  match st.selectedSlot with
  | none => st
  | some _ =>
    match outcome with
    | .success _ =>
        fetchData
          { st with
            showScheduleDialog := false
            selectedSlot := none
            eventName := ""
            eventDescription := "" }
    | .failure => st

/-- `processNaturalLanguage` (Scheduler.tsx 389-450).  The guard
`if (!nlCommand.trim() || !isAuthenticated) return` aborts before any
request.  On success the response is stored in `nlResult`; when it carries
a `found_slot`, the slot string is pre-selected as `selectedSlot`, the
date part `YYYY-MM-DD` becomes `selectedDate` via
`new Date(year, month - 1, day)` (local midnight, no timezone
adjustment), and the event fields are pre-filled with
`result.event_name || ""` and `result.event_description || ""`; the
dialog opens when both `event_name` and `found_slot` are truthy.  On a
caught failure the command-specific error message is stored. -/
def processNaturalLanguage (st : SchedulerState) (outcome : NLOutcome) : SchedulerState :=
  if jsTrim st.nlCommand = "" ∨ st.isAuthenticated = false then st
  else
    let st1 := { st with nlProcessing := true }
    let st2 :=
      match outcome with
      | .success result =>
        let stR := { st1 with nlResult := some result }
        match result.found_slot with
        | some slotString =>
          let dateOnly : JSDate :=
            ⟨slotString.year, slotString.month, slotString.day, 0, 0, 0⟩
          let stSel :=
            { stR with
              selectedDate := some dateOnly
              selectedSlot := some slotString
              eventName := result.event_name.getD ""
              eventDescription := result.event_description.getD "" }
          if result.event_name.getD "" ≠ "" then
            { stSel with showScheduleDialog := true }
          else stSel
        | none => stR
      | .failure =>
          { st1 with
            error :=
              some "Failed to process your command. Please try again or use manual selection." }
    { st2 with nlProcessing := false }

/-- `hasAvailableSlots` (Scheduler.tsx 452-477): false while loading;
when authenticated with real data but an empty slot list, any day within
the next 5 days from now is allowed; otherwise a day is selectable exactly
when its bucket is non-empty.  `nowSeconds` stands for `Date.now()`. -/
def hasAvailableSlots (offsetMinutes nowSeconds : Int) (st : SchedulerState)
    (date : JSDate) : Bool :=
  if st.loading || st.dataLoading || (st.authLoading && !st.usingRealData) then false
  else
    let dateKey := formatDateKey date
    let noSlots : Bool :=
      match st.data with
      | none => true
      | some d => d.available_slots.isEmpty
    if st.isAuthenticated && st.usingRealData && noSlots then
      decide (nowSeconds ≤ dateToEpochSeconds offsetMinutes date ∧
        dateToEpochSeconds offsetMinutes date ≤ nowSeconds + 5 * 24 * 60 * 60)
    else
      !(groupSlotsByDate st.data dateKey).isEmpty

/-! ### The main render branch (Scheduler.tsx 659-855) -/

/-- A user-triggerable action wired to a rendered control. -/
inductive ClientAction where
  | fetchDataAll
  | connectGoogle
  | logout
  | processCommand
  | createEvent
deriving DecidableEq, Repr

/-- The mutually exclusive main views of the component body:
`loading ? skeleton : error ? alert-with-retry : !isAuthenticated ?
login-prompt : data ? content : no-data`. -/
inductive MainView where
  | skeleton
  | errorBanner (message : String) (retry : ClientAction)
  | loginPrompt
  | content (d : ScheduleData)
  | noData
deriving DecidableEq, Repr

/-- The branch structure of the rendered `CardContent`
(Scheduler.tsx 659-855).  The error branch renders an alert with the
stored message and a "Try Again" button whose `onClick` is
`() => fetchData()`. -/
def renderMain (st : SchedulerState) : MainView :=
  if st.loading then .skeleton
  else
    match st.error with
    | some e => .errorBanner e .fetchDataAll
    | none =>
      if st.isAuthenticated = false then .loginPrompt
      else
        match st.data with
        | some d => .content d
        | none => .noData

/-! ### Spec-side definitions

These two definitions follow the words of the specification claims (not
the source) and exist to be compared against the code-derived definitions
above. -/

/-- Spec-side definition for the grouping claim: "the local calendar day
of the instant the ISO timestamp denotes", i.e. the date key obtained by
first converting the denoted instant to the equivalent local time
(`new Date(isoString)` semantics) and only then taking the calendar day. -/
def localDayOfInstant (offsetMinutes : Int) (iso : IsoTimestamp) : String :=
  formatDateKey (parseUtcToLocalDateOld offsetMinutes iso)

/-- Spec-side deduplication keeping the first occurrence of each key, used
to state the order of `getDatesWithSlots`.  `seen` accumulates the keys
already emitted. -/
def dedupGo : List String → List String → List String
  | _, [] => []
  | seen, k :: ks =>
    if k ∈ seen then dedupGo seen ks else k :: dedupGo (seen ++ [k]) ks

/-- The distinct date keys of a key list, in order of first occurrence. -/
def firstOccurDedup (ks : List String) : List String :=
  dedupGo [] ks

/-! ### Helper lemmas -/

theorem groupInsert_apply (g : String → List IsoTimestamp) (s : IsoTimestamp)
    (k : String) :
    groupInsert g s k = if k = slotDateKey s then g k ++ [s] else g k := rfl

theorem foldl_groupInsert_apply (slots : List IsoTimestamp)
    (g : String → List IsoTimestamp) (k : String) :
    (slots.foldl groupInsert g) k =
      g k ++ slots.filter (fun s => decide (slotDateKey s = k)) := by
  induction slots generalizing g with
  | nil => simp
  | cons s rest ih =>
    simp only [List.foldl_cons, List.filter_cons, ih, groupInsert_apply]
    by_cases h : slotDateKey s = k
    · rw [if_pos h.symm]
      simp [h]
    · rw [if_neg (fun hk => h hk.symm)]
      simp [h]

theorem groupSlotsByDate_apply (d : ScheduleData) (k : String) :
    groupSlotsByDate (some d) k =
      d.available_slots.filter (fun s => decide (slotDateKey s = k)) := by
  simp [groupSlotsByDate, foldl_groupInsert_apply]

theorem mem_dedupGo (x : String) (l : List String) :
    ∀ seen : List String, x ∈ dedupGo seen l ↔ x ∈ l ∧ x ∉ seen := by
  induction l with
  | nil => simp [dedupGo]
  | cons k ks ih =>
    intro seen
    by_cases h : k ∈ seen
    · simp only [dedupGo, if_pos h, ih, List.mem_cons]
      constructor
      · rintro ⟨hx, hs⟩; exact ⟨Or.inr hx, hs⟩
      · rintro ⟨hx | hx, hs⟩
        · exact absurd (hx ▸ h) hs
        · exact ⟨hx, hs⟩
    · simp only [dedupGo, if_neg h, List.mem_cons, ih]
      constructor
      · rintro (rfl | ⟨hx, hs⟩)
        · exact ⟨Or.inl rfl, h⟩
        · exact ⟨Or.inr hx, fun hxs => hs (List.mem_append.mpr (Or.inl hxs))⟩
      · rintro ⟨rfl | hx, hs⟩
        · exact Or.inl rfl
        · by_cases hxk : x = k
          · exact Or.inl hxk
          · refine Or.inr ⟨hx, fun hcon => ?_⟩
            rcases List.mem_append.mp hcon with h1 | h1
            · exact hs h1
            · exact hxk (List.mem_singleton.mp h1)

theorem nodup_dedupGo (l : List String) :
    ∀ seen : List String, (dedupGo seen l).Nodup := by
  induction l with
  | nil => intro seen; simp [dedupGo]
  | cons k ks ih =>
    intro seen
    by_cases h : k ∈ seen
    · simpa [dedupGo, if_pos h] using ih seen
    · simp only [dedupGo, if_neg h]
      refine List.nodup_cons.mpr ⟨?_, ?_⟩
      · intro hk
        have := (mem_dedupGo k ks (seen ++ [k])).mp hk
        exact this.2 (by simp)
      · exact ih (seen ++ [k])

theorem datesStep_eq (seen : List String) (ds : List JSDate) (s : IsoTimestamp) :
    datesStep (seen, ds) s =
      if slotDateKey s ∈ seen then (seen, ds)
      else (seen ++ [slotDateKey s],
        ds ++ [⟨(parseUtcToLocalDate s).year, (parseUtcToLocalDate s).month,
          (parseUtcToLocalDate s).day, 0, 0, 0⟩]) := rfl

theorem foldl_datesStep_fst (slots : List IsoTimestamp) :
    ∀ (seen : List String) (ds : List JSDate),
      (slots.foldl datesStep (seen, ds)).1 = seen ++ dedupGo seen (slots.map slotDateKey) := by
  induction slots with
  | nil => intro seen ds; simp [dedupGo]
  | cons s rest ih =>
    intro seen ds
    simp only [List.foldl_cons, datesStep_eq, List.map_cons, dedupGo]
    by_cases h : slotDateKey s ∈ seen
    · rw [if_pos h, if_pos h]
      exact ih seen ds
    · rw [if_neg h, if_neg h, ih (seen ++ [slotDateKey s])]
      simp

theorem foldl_datesStep_map (slots : List IsoTimestamp) :
    ∀ (seen : List String) (ds : List JSDate),
      ((slots.foldl datesStep (seen, ds)).2).map formatDateKey =
        ds.map formatDateKey ++ dedupGo seen (slots.map slotDateKey) := by
  induction slots with
  | nil => intro seen ds; simp [dedupGo]
  | cons s rest ih =>
    intro seen ds
    simp only [List.foldl_cons, datesStep_eq, List.map_cons, dedupGo]
    by_cases h : slotDateKey s ∈ seen
    · rw [if_pos h, if_pos h]
      exact ih seen ds
    · rw [if_neg h, if_neg h, ih (seen ++ [slotDateKey s])]
      simp [slotDateKey, formatDateKey, parseUtcToLocalDate]

theorem foldl_datesStep_midnight (slots : List IsoTimestamp) :
    ∀ (seen : List String) (ds : List JSDate),
      (∀ dt ∈ ds, dt.hour = 0 ∧ dt.minute = 0 ∧ dt.second = 0) →
      ∀ dt ∈ (slots.foldl datesStep (seen, ds)).2,
        dt.hour = 0 ∧ dt.minute = 0 ∧ dt.second = 0 := by
  induction slots with
  | nil => intro seen ds hds; simpa using hds
  | cons s rest ih =>
    intro seen ds hds
    simp only [List.foldl_cons, datesStep_eq]
    by_cases h : slotDateKey s ∈ seen
    · rw [if_pos h]
      exact ih seen ds hds
    · rw [if_neg h]
      refine ih _ _ ?_
      intro dt hdt
      rcases List.mem_append.mp hdt with hdt | hdt
      · exact hds dt hdt
      · rcases List.mem_singleton.mp hdt with rfl
        exact ⟨rfl, rfl, rfl⟩

/-! ### Claim C1 -/

/-- C1, counterexample: the claim says each slot lands in the bucket keyed
by the local calendar day of the instant the timestamp denotes.  With host
offset +120 minutes (e.g. Central European Summer Time) and the slot
`"2025-01-01T23:00:00Z"`, the denoted instant falls on the local day
2025-01-02, yet the bucket keyed `"01/02/2025"` is empty and the slot sits
in the bucket `"01/01/2025"` of the day literally written in the string:
`groupSlotsByDate` never converts the timestamp to local time. -/
theorem claim1_counterexample :
    (⟨2025, 1, 1, 23, 0, 0, true⟩ : IsoTimestamp) ∉
      groupSlotsByDate (some ⟨[⟨2025, 1, 1, 23, 0, 0, true⟩], "", none⟩)
        (localDayOfInstant 120 ⟨2025, 1, 1, 23, 0, 0, true⟩) ∧
    localDayOfInstant 120 ⟨2025, 1, 1, 23, 0, 0, true⟩ = "01/02/2025" ∧
    (⟨2025, 1, 1, 23, 0, 0, true⟩ : IsoTimestamp) ∈
      groupSlotsByDate (some ⟨[⟨2025, 1, 1, 23, 0, 0, true⟩], "", none⟩)
        "01/01/2025" := by
  decide

/-- C1, amended: for every slot in `available_slots`, `groupSlotsByDate`
places the slot in the bucket keyed by the calendar day literally written
in the ISO timestamp — `parseUtcToLocalDate` builds a local `Date` from
the string's own year/month/day fields without converting the denoted
instant to local time — and every slot appears in exactly one bucket. -/
theorem claim1_buckets_by_written_day (d : ScheduleData) (slot : IsoTimestamp)
    (h : slot ∈ d.available_slots) :
    slotDateKey slot =
      pad2 slot.month ++ "/" ++ pad2 slot.day ++ "/" ++ toString slot.year ∧
    slot ∈ groupSlotsByDate (some d) (slotDateKey slot) ∧
    ∀ k, slot ∈ groupSlotsByDate (some d) k → k = slotDateKey slot := by
  refine ⟨rfl, ?_, ?_⟩
  · rw [groupSlotsByDate_apply]
    exact List.mem_filter.mpr ⟨h, by simp⟩
  · intro k hk
    rw [groupSlotsByDate_apply] at hk
    have hkey := (List.mem_filter.mp hk).2
    simp only [decide_eq_true_eq] at hkey
    exact hkey.symm

/-- C1, witness: the amended theorem at the concrete schedule holding the
single slot `"2025-01-01T23:00:00Z"`. -/
theorem claim1_witness :
    slotDateKey ⟨2025, 1, 1, 23, 0, 0, true⟩ = "01/01/2025" ∧
    (⟨2025, 1, 1, 23, 0, 0, true⟩ : IsoTimestamp) ∈
      groupSlotsByDate (some ⟨[⟨2025, 1, 1, 23, 0, 0, true⟩], "", none⟩)
        (slotDateKey ⟨2025, 1, 1, 23, 0, 0, true⟩) := by
  have h := claim1_buckets_by_written_day ⟨[⟨2025, 1, 1, 23, 0, 0, true⟩], "", none⟩
    ⟨2025, 1, 1, 23, 0, 0, true⟩ (by decide)
  exact ⟨by decide, h.2.1⟩

/-! ### Claim C8 -/

/-- C8, counterexample: the two revisions of `parseUtcToLocalDate` differ.
For `"2025-06-15T10:00:00Z"` in a host timezone of offset −300 minutes
(Eastern Standard Time), the old `new Date(isoString)` yields local
05:00 while the new field-wise parser yields 10:00; and even at offset 0,
a timestamp with a non-zero seconds field (`"2025-06-15T10:00:30"`)
differs because the new parser drops seconds. -/
theorem claim8_counterexample :
    parseUtcToLocalDateOld (-300) ⟨2025, 6, 15, 10, 0, 0, true⟩ ≠
      parseUtcToLocalDate ⟨2025, 6, 15, 10, 0, 0, true⟩ ∧
    parseUtcToLocalDateOld 0 ⟨2025, 6, 15, 10, 0, 30, false⟩ ≠
      parseUtcToLocalDate ⟨2025, 6, 15, 10, 0, 30, false⟩ := by
  decide

/-- C8, amended: the old (`new Date(isoString)`) and new (field-wise)
`parseUtcToLocalDate` return the same `Date` for every valid ISO timestamp
whose seconds field is zero, provided the timestamp carries no UTC
designator or the host timezone offset is zero; a `Z`-suffixed timestamp
in a non-UTC timezone (or a non-zero seconds field) separates them. -/
theorem claim8_parse_agreement (offsetMinutes : Int) (iso : IsoTimestamp)
    (hv : iso.Valid) (hs : iso.second = 0)
    (h : iso.zulu = false ∨ offsetMinutes = 0) :
    parseUtcToLocalDateOld offsetMinutes iso = parseUtcToLocalDate iso := by
  obtain ⟨y, m, d, hh, mm, ss, z⟩ := iso
  have h5 : hh < 24 := hv.2.2.2.2.1
  have h6 : mm < 60 := hv.2.2.2.2.2.1
  have hs' : ss = 0 := hs
  subst hs'
  cases z with
  | false => simp [parseUtcToLocalDateOld, parseUtcToLocalDate]
  | true =>
    rcases h with h | h
    · exact absurd h (by simp)
    · subst h
      show shiftByOffset y m d hh mm 0 0 = ⟨y, m, d, hh, mm, 0⟩
      simp only [shiftByOffset]
      have hdiv : (((hh * 3600 + mm * 60 + 0 : Nat) : Int) + 0 * 60) / 86400 = 0 := by
        omega
      have hmod : (((hh * 3600 + mm * 60 + 0 : Nat) : Int) + 0 * 60) % 86400 =
          ((hh * 3600 + mm * 60 + 0 : Nat) : Int) := by omega
      rw [hdiv, hmod]
      have hsd : shiftDays (y, m, d) 0 = (y, m, d) := by simp [shiftDays]
      rw [hsd]
      simp only [JSDate.mk.injEq, true_and]
      refine ⟨?_, ?_, ?_⟩ <;> omega

/-- C8, witness: the amended theorem at offset 0 on the zero-second
timestamp `"2025-06-15T10:00:00Z"`. -/
theorem claim8_witness :
    parseUtcToLocalDateOld 0 ⟨2025, 6, 15, 10, 0, 0, true⟩ =
      parseUtcToLocalDate ⟨2025, 6, 15, 10, 0, 0, true⟩ :=
  claim8_parse_agreement 0 ⟨2025, 6, 15, 10, 0, 0, true⟩ (by decide) rfl (Or.inr rfl)

/-! ### Claim C2 -/

/-- C2: whenever the `POST /schedule/process-command` response contains a
`found_slot` (and the command guard let the request go out),
`processNaturalLanguage` sets `selectedSlot` to exactly that slot string,
`selectedDate` to local midnight of its `YYYY-MM-DD` date part, and the
event name/description to the response's fields, defaulting to `""` when
a field is absent. -/
theorem claim2_process_command_preselects (st : SchedulerState) (result : NLResponse)
    (fs : IsoTimestamp)
    (hcmd : jsTrim st.nlCommand ≠ "") (hauth : st.isAuthenticated = true)
    (hfs : result.found_slot = some fs) :
    (processNaturalLanguage st (.success result)).selectedSlot = some fs ∧
    (processNaturalLanguage st (.success result)).selectedDate =
      some ⟨fs.year, fs.month, fs.day, 0, 0, 0⟩ ∧
    (processNaturalLanguage st (.success result)).eventName =
      result.event_name.getD "" ∧
    (processNaturalLanguage st (.success result)).eventDescription =
      result.event_description.getD "" := by
  have hguard : ¬(jsTrim st.nlCommand = "" ∨ st.isAuthenticated = false) := by
    rintro (hg | hg)
    · exact hcmd hg
    · rw [hauth] at hg; cases hg
  simp only [processNaturalLanguage, if_neg hguard, hfs]
  by_cases hname : result.event_name.getD "" ≠ ""
  · simp [if_pos hname]
  · simp [if_neg hname]

/-- C2, witness: the theorem at a concrete authenticated state with the
command `"book"` and a response proposing `"2025-06-21T15:00:00Z"`. -/
theorem claim2_witness :
    (processNaturalLanguage
      { initialState with nlCommand := "book", isAuthenticated := true }
      (.success ⟨some ⟨2025, 6, 21, 15, 0, 0, true⟩, some "BBQ party", none,
        "ok"⟩)).selectedSlot = some ⟨2025, 6, 21, 15, 0, 0, true⟩ := by
  have h := claim2_process_command_preselects
    { initialState with nlCommand := "book", isAuthenticated := true }
    ⟨some ⟨2025, 6, 21, 15, 0, 0, true⟩, some "BBQ party", none, "ok"⟩
    ⟨2025, 6, 21, 15, 0, 0, true⟩ (by decide) rfl rfl
  exact h.1

/-! ### Claim C3 -/

/-- C3: `fetchData` requests `/schedule?selected_date=<date.toISOString()>`
when a date argument is supplied and plain `/schedule` otherwise, and a
successful JSON response is stored unchanged as the new schedule data. -/
theorem claim3_fetch_schedule_request (offsetMinutes : Int) (dt : JSDate)
    (st : SchedulerState) (responseData : ScheduleData) :
    fetchDataRequestUrl offsetMinutes (some dt) =
      "http://localhost:8000/schedule?selected_date=" ++ toISOString offsetMinutes dt ∧
    fetchDataRequestUrl offsetMinutes none = "http://localhost:8000/schedule" ∧
    (fetchDataResolve st (.success responseData)).data = some responseData :=
  ⟨rfl, rfl, rfl⟩

/-! ### Claim C4 -/

/-- C4: with a non-null `selectedSlot`, the `POST /schedule/create` body is
exactly `{start_time: selectedSlot, summary: eventName, description:
eventDescription}`; with a null `selectedSlot` no request is produced and
the state is unchanged whatever the (non-)outcome. -/
theorem claim4_create_event_body (st : SchedulerState) (slot : IsoTimestamp)
    (oc : CreateOutcome) :
    scheduleEventRequest { st with selectedSlot := some slot } =
      some ⟨slot, st.eventName, st.eventDescription⟩ ∧
    scheduleEventRequest { st with selectedSlot := none } = none ∧
    scheduleEvent { st with selectedSlot := none } oc = { st with selectedSlot := none } :=
  ⟨rfl, rfl, rfl⟩

/-! ### Claim C5 -/

/-- C5: `logoutFromGoogle` clears the session exactly on an OK response:
then `isAuthenticated` becomes false and `selectedSlot`, `selectedDate`
and `data` are reset to null; on a non-OK response or a thrown error none
of those four fields changes. -/
theorem claim5_logout_clears_session (st : SchedulerState) :
    ((logoutFromGoogle st .ok).isAuthenticated = false ∧
      (logoutFromGoogle st .ok).selectedSlot = none ∧
      (logoutFromGoogle st .ok).selectedDate = none ∧
      (logoutFromGoogle st .ok).data = none) ∧
    ((logoutFromGoogle st .notOk).isAuthenticated = st.isAuthenticated ∧
      (logoutFromGoogle st .notOk).selectedSlot = st.selectedSlot ∧
      (logoutFromGoogle st .notOk).selectedDate = st.selectedDate ∧
      (logoutFromGoogle st .notOk).data = st.data) ∧
    ((logoutFromGoogle st .threw).isAuthenticated = st.isAuthenticated ∧
      (logoutFromGoogle st .threw).selectedSlot = st.selectedSlot ∧
      (logoutFromGoogle st .threw).selectedDate = st.selectedDate ∧
      (logoutFromGoogle st .threw).data = st.data) :=
  ⟨⟨rfl, rfl, rfl, rfl⟩, ⟨rfl, rfl, rfl, rfl⟩, ⟨rfl, rfl, rfl, rfl⟩⟩

/-! ### Claim C6 -/

/-- C6: every failure of the schedule fetch (a non-OK status throws into
the same `.catch` as a network error) stores the single generic message,
and a non-loading state then renders as the destructive alert banner
carrying that message with a retry control wired to `fetchData()`. -/
theorem claim6_fetch_failure_banner (st : SchedulerState) (h : st.loading = false) :
    (fetchDataResolve st .failure).error =
      some "Failed to load schedule data. Please try again later." ∧
    renderMain (fetchDataResolve st .failure) =
      .errorBanner "Failed to load schedule data. Please try again later."
        .fetchDataAll := by
  refine ⟨rfl, ?_⟩
  simp [renderMain, fetchDataResolve, h]

/-- C6, witness: the theorem at the initial state with loading finished. -/
theorem claim6_witness :
    (fetchDataResolve { initialState with loading := false } .failure).error =
      some "Failed to load schedule data. Please try again later." ∧
    renderMain (fetchDataResolve { initialState with loading := false } .failure) =
      .errorBanner "Failed to load schedule data. Please try again later."
        .fetchDataAll :=
  claim6_fetch_failure_banner { initialState with loading := false } rfl

/-! ### Claim C7 -/

/-- C7: `checkAuthStatus` returns the `authenticated` field of an OK
response and stores it in `isAuthenticated`; on a non-OK response or a
thrown error it returns `false` and leaves the state untouched. -/
theorem claim7_check_auth_status (st : SchedulerState) (b : Bool) :
    checkAuthStatus st (.ok b) = ({ st with isAuthenticated := b }, b) ∧
    checkAuthStatus st .notOk = (st, false) ∧
    checkAuthStatus st .threw = (st, false) :=
  ⟨rfl, rfl, rfl⟩

/-! ### Claim C9 -/

/-- C9: for a selected date, `getSlotsForSelectedDate` returns exactly the
slots of that date's bucket whose parsed local hour `h` satisfies
`9 ≤ h < 19`; a slot outside that window is never offered through the date
view, even though `groupSlotsByDate` still counts it and
`hasAvailableSlots` therefore still makes its day selectable (once loading
has finished and the auth-loading special case does not apply). -/
theorem claim9_slot_window (dt : JSDate) (data : Option ScheduleData) :
    (getSlotsForSelectedDate (some dt) data =
      (groupSlotsByDate data (formatDateKey dt)).filter fun s =>
        decide (9 ≤ (parseUtcToLocalDate s).hour ∧ (parseUtcToLocalDate s).hour < 19)) ∧
    (∀ s : IsoTimestamp,
      ¬(9 ≤ (parseUtcToLocalDate s).hour ∧ (parseUtcToLocalDate s).hour < 19) →
      s ∉ getSlotsForSelectedDate (some dt) data) ∧
    (∀ (offsetMinutes nowSeconds : Int) (st : SchedulerState) (s : IsoTimestamp)
        (sd : ScheduleData),
      st.data = some sd → s ∈ sd.available_slots →
      st.loading = false → st.dataLoading = false →
      (st.authLoading = false ∨ st.usingRealData = true) →
      hasAvailableSlots offsetMinutes nowSeconds st (parseUtcToLocalDate s) = true) := by
  refine ⟨rfl, ?_, ?_⟩
  · intro s hwin hmem
    have := (List.mem_filter.mp hmem).2
    simp only [decide_eq_true_eq] at this
    exact hwin this
  · intro offsetMinutes nowSeconds st s sd hdata hmem hload hdload hauth
    have hne : sd.available_slots ≠ [] := List.ne_nil_of_mem hmem
    have hguard : (st.loading || st.dataLoading || (st.authLoading && !st.usingRealData)) =
        false := by
      rw [hload, hdload]
      rcases hauth with hal | hur
      · rw [hal]; simp
      · rw [hur]; simp
    have hempty : sd.available_slots.isEmpty = false := by
      cases hsl : sd.available_slots with
      | nil => exact absurd hsl hne
      | cons a l => simp [List.isEmpty]
    have hbucket : s ∈ groupSlotsByDate (some sd) (formatDateKey (parseUtcToLocalDate s)) := by
      rw [groupSlotsByDate_apply]
      exact List.mem_filter.mpr ⟨hmem, by simp [slotDateKey]⟩
    have hbne : groupSlotsByDate (some sd) (formatDateKey (parseUtcToLocalDate s)) ≠ [] :=
      List.ne_nil_of_mem hbucket
    simp only [hasAvailableSlots, hguard, Bool.false_eq_true, if_false, hdata, hempty,
      Bool.and_false]
    cases hb : groupSlotsByDate (some sd) (formatDateKey (parseUtcToLocalDate s)) with
    | nil => exact absurd hb hbne
    | cons a l => simp [List.isEmpty]

/-- A slot at 20:00 local, outside the bookable 9-19 window. -/
def lateSlot : IsoTimestamp := ⟨2025, 6, 21, 20, 0, 0, true⟩

/-- A schedule whose only slots are one late (20:00) and one bookable
(15:00) slot on 2025-06-21. -/
def exampleSchedule : ScheduleData :=
  ⟨[lateSlot, ⟨2025, 6, 21, 15, 0, 0, true⟩], "", none⟩

/-- A loaded, idle state holding `exampleSchedule`. -/
def exampleLoadedState : SchedulerState :=
  { initialState with loading := false, dataLoading := false, data := some exampleSchedule }

/-- C9, witness: in `exampleSchedule`, the 20:00 slot is not offered for
2025-06-21 although its day is selectable. -/
theorem claim9_witness :
    lateSlot ∉ getSlotsForSelectedDate (some ⟨2025, 6, 21, 0, 0, 0⟩)
      (some exampleSchedule) ∧
    hasAvailableSlots 0 0 exampleLoadedState (parseUtcToLocalDate lateSlot) = true := by
  have h := claim9_slot_window ⟨2025, 6, 21, 0, 0, 0⟩ (some exampleSchedule)
  exact ⟨h.2.1 lateSlot (by decide),
    h.2.2 0 0 exampleLoadedState lateSlot exampleSchedule rfl (by decide) rfl rfl
      (Or.inl rfl)⟩

/-! ### Claim C10 -/

/-- C10: the dates returned by `getDatesWithSlots` correspond one-to-one
with the non-empty buckets of `groupSlotsByDate`: their keys are exactly
the distinct slot date keys in order of first occurrence in
`available_slots`, without duplicates, each date is set to local midnight
of its day, and a key is listed exactly when its bucket is non-empty. -/
theorem claim10_dates_with_slots (d : ScheduleData) :
    (getDatesWithSlots (some d)).map formatDateKey =
      firstOccurDedup (d.available_slots.map slotDateKey) ∧
    ((getDatesWithSlots (some d)).map formatDateKey).Nodup ∧
    (∀ dt ∈ getDatesWithSlots (some d),
      dt.hour = 0 ∧ dt.minute = 0 ∧ dt.second = 0) ∧
    (∀ k, k ∈ (getDatesWithSlots (some d)).map formatDateKey ↔
      groupSlotsByDate (some d) k ≠ []) := by
  have hmain : (getDatesWithSlots (some d)).map formatDateKey =
      dedupGo [] (d.available_slots.map slotDateKey) := by
    simpa [getDatesWithSlots] using foldl_datesStep_map d.available_slots [] []
  refine ⟨hmain, ?_, ?_, ?_⟩
  · rw [hmain]; exact nodup_dedupGo _ _
  · intro dt hdt
    refine foldl_datesStep_midnight d.available_slots [] [] (by simp) dt ?_
    simpa [getDatesWithSlots] using hdt
  · intro k
    rw [hmain, mem_dedupGo, groupSlotsByDate_apply]
    simp only [List.not_mem_nil, not_false_iff, and_true]
    constructor
    · intro hk
      rcases List.mem_map.mp hk with ⟨s, hs, hks⟩
      exact List.ne_nil_of_mem (List.mem_filter.mpr ⟨hs, by simp [hks]⟩)
    · intro hne
      rcases List.exists_mem_of_ne_nil _ hne with ⟨s, hs⟩
      have := List.mem_filter.mp hs
      refine List.mem_map.mpr ⟨s, this.1, ?_⟩
      simpa using this.2

/-- C10, witness: the theorem at `exampleSchedule` (one day, two slots),
with the midnight conjunct instantiated at the single returned date. -/
theorem claim10_witness :
    (getDatesWithSlots (some exampleSchedule)).map formatDateKey =
      firstOccurDedup (exampleSchedule.available_slots.map slotDateKey) ∧
    ((⟨2025, 6, 21, 0, 0, 0⟩ : JSDate).hour = 0 ∧
      (⟨2025, 6, 21, 0, 0, 0⟩ : JSDate).minute = 0 ∧
      (⟨2025, 6, 21, 0, 0, 0⟩ : JSDate).second = 0) := by
  have h := claim10_dates_with_slots exampleSchedule
  exact ⟨h.1, h.2.2.1 ⟨2025, 6, 21, 0, 0, 0⟩ (by decide)⟩

end Scheduler
